import Mathlib

/-!
Verification of the bmad-mcp-server repository against its specification.

Part 1 embeds the MCP server in `src/server.ts` (agent-state map, the four
tools `list_agents`, `bmad_activate_agent`, `execute_task`,
`get_agent_status`, and the error-wrapping MCP / HTTP entry points).

Part 2 models the Workflow & Task Orchestration Core described by the
specification (Task Entity Store, Capacity Scheduler, Quality Gate
Evaluator, Workflow State Machine); that core has no implementation under
the repository sources, so its definitions are modelled from the spec and
marked as such.

JSON payloads are embedded structurally (an inductive of JSON values);
`JSON.stringify` serialisation is dropped, responses are compared as
structured values.  Opaque payloads (tool `config` / `parameters`
objects) are carried as strings.  Wall-clock readings
(`new Date().toISOString()`, `Date.now()`) are passed in as an explicit
`Clock` argument.
-/

namespace BMAD

/-- Structural JSON values, the shape of the strings the server builds
with `JSON.stringify`. -/
inductive JsonV where
  | str (s : String)
  | num (n : Nat)
  | bool (b : Bool)
  | null
  | arr (xs : List JsonV)
  | obj (fields : List (String × JsonV))

/-- Field lookup in a JSON object field list (first match wins). -/
def lookupField : List (String × JsonV) → String → Option JsonV
  | [], _ => none
  | (k, v) :: rest, key => if k = key then some v else lookupField rest key

/-- Field lookup on a JSON value; `none` on non-objects. -/
def JsonV.getField (j : JsonV) (k : String) : Option JsonV :=
  match j with
  | .obj fields => lookupField fields k
  | _ => none

def isBoolTrue : Option JsonV → Bool
  | some (.bool true) => true
  | _ => false

def isBoolFalse : Option JsonV → Bool
  | some (.bool false) => true
  | _ => false

/-- `interface AgentState` of src/server.ts: status is `"active" | "inactive"`. -/
inductive AgentStatus where
  | active
  | inactive
deriving DecidableEq

def AgentStatus.toStr : AgentStatus → String
  | .active => "active"
  | .inactive => "inactive"

/-- `interface AgentState` of src/server.ts.  `metadata?: any` is an opaque
JSON payload, carried as a string. -/
structure AgentState where
  id : String
  status : AgentStatus
  activated_at : String
  metadata : String
deriving DecidableEq

/-- The server's `agentStates: Map<string, AgentState>`, as an insertion
ordered association list (the iteration order of a JS `Map`). -/
abbrev AgentMap := List (String × AgentState)

/-- `Map.get`: first binding for the key. -/
def mapGet : AgentMap → String → Option AgentState
  | [], _ => none
  | (k, v) :: rest, key => if k = key then some v else mapGet rest key

/-- `Map.set`: replace in place when the key exists, else append
(JS `Map` keeps the original insertion position on overwrite). -/
def mapSet : AgentMap → String → AgentState → AgentMap
  | [], k, v => [(k, v)]
  | (k', v') :: rest, k, v =>
      if k' = k then (k, v) :: rest else (k', v') :: mapSet rest k v

/-- Arguments of a tool call.  Each tool reads the optional fields it
needs; absent JSON fields are `none`.  Opaque object payloads
(`config`, `parameters`) are strings. -/
structure ToolArgs where
  agent_id : Option String := none
  task : Option String := none
  config : Option String := none
  parameters : Option String := none

/-- A `tools/call` request: tool name plus arguments
(`arguments` may be absent; `handleToolCall` normalises with `args \x7b\x7d`). -/
structure ToolRequest where
  name : String
  arguments : Option ToolArgs

/-- A thrown `Error`: only its message is observable
(`error.constructor.name` is always `Error` here). -/
structure ToolError where
  message : String
deriving DecidableEq

/-- Wall-clock readings passed into the handlers:
`new Date().toISOString()` and `Date.now()`. -/
structure Clock where
  nowIso : String
  nowMs : Nat

/-- JS truthiness of an optional string: `undefined`, `null` and the
empty string are falsy. -/
def strFalsy : Option String → Bool
  | none => true
  | some s => s = ""

/-- JS `config \x7c\x7c \x7b\x7d`: absent payload defaults to the empty object. -/
def orEmptyObj (c : Option String) : String := c.getD "\x7b\x7d"

/-- The fixed agent roster checked by `activateAgent`
(`const validAgents = [...]`). -/
def validAgents : List String := ["architect", "developer", "analyst", "pm", "qa"]

/-- One row of the `listAgents` response (id, name, title, status string). -/
def agentRow (st : AgentMap) (id name title : String) (caps : List String) : JsonV :=
  .obj [("id", .str id), ("name", .str name), ("title", .str title),
        ("status", .str (match mapGet st id with
          | some a => a.status.toStr
          | none => "available")),
        ("capabilities", .arr (caps.map JsonV.str))]

/-- `listAgents` of src/server.ts: static roster with live status. -/
def listAgents (st : AgentMap) : JsonV :=
  let agents : List JsonV :=
    [agentRow st "architect" "Winston" "System Architect"
       ["system-design", "architecture", "technical-planning"],
     agentRow st "developer" "Dev" "Senior Developer"
       ["coding", "implementation", "debugging"],
     agentRow st "analyst" "Ana" "Business Analyst"
       ["analysis", "requirements", "documentation"],
     agentRow st "pm" "Patricia" "Project Manager"
       ["project-management", "coordination", "planning"],
     agentRow st "qa" "Quinn" "QA Engineer"
       ["testing", "quality-assurance", "validation"]]
  .obj [("success", .bool true),
        ("agents", .arr agents),
        ("total_agents", .num agents.length),
        ("active_agents", .num ((st.filter (fun kv => kv.2.status = .active)).length))]

/-- `activateAgent` of src/server.ts: requires `agent_id`, checks it
against `validAgents`, returns `already_active` idempotently when the
agent is already active, otherwise stores a fresh active state. -/
def activateAgent (c : Clock) (st : AgentMap) (args : ToolArgs) :
    Except ToolError (JsonV × AgentMap) :=
  if strFalsy args.agent_id then
    .error ⟨"agent_id is required"⟩
  else
    let a := args.agent_id.getD ""
    if a ∈ validAgents then
      match mapGet st a with
      | some existing =>
          if existing.status = .active then
            .ok (.obj [("success", .bool true),
                       ("status", .str "already_active"),
                       ("agent_id", .str a),
                       ("message", .str ("Agent " ++ a ++ " is already active")),
                       ("activated_at", .str existing.activated_at)], st)
          else
            let ns : AgentState := ⟨a, .active, c.nowIso, orEmptyObj args.config⟩
            .ok (.obj [("success", .bool true),
                       ("status", .str "activated"),
                       ("agent_id", .str a),
                       ("message", .str ("Agent " ++ a ++ " successfully activated")),
                       ("activated_at", .str ns.activated_at),
                       ("config", .str ns.metadata)], mapSet st a ns)
      | none =>
          let ns : AgentState := ⟨a, .active, c.nowIso, orEmptyObj args.config⟩
          .ok (.obj [("success", .bool true),
                     ("status", .str "activated"),
                     ("agent_id", .str a),
                     ("message", .str ("Agent " ++ a ++ " successfully activated")),
                     ("activated_at", .str ns.activated_at),
                     ("config", .str ns.metadata)], mapSet st a ns)
    else
      .error ⟨"Invalid agent_id: " ++ a⟩

/-- `executeTask` of src/server.ts: requires `agent_id` and `task`
(JS truthiness), requires the agent to be active, then always reports a
completed simulated task.  Never mutates the agent map. -/
def executeTask (c : Clock) (st : AgentMap) (args : ToolArgs) :
    Except ToolError JsonV :=
  if strFalsy args.agent_id || strFalsy args.task then
    .error ⟨"agent_id and task are required"⟩
  else
    let a := args.agent_id.getD ""
    let t := args.task.getD ""
    match mapGet st a with
    | some as =>
        if as.status = .active then
          .ok (.obj [("success", .bool true),
                     ("task_id", .str ("task_" ++ toString c.nowMs)),
                     ("agent_id", .str a),
                     ("task", .str t),
                     ("parameters", .str (orEmptyObj args.parameters)),
                     ("status", .str "completed"),
                     ("result", .str ("Task " ++ t ++ " executed successfully by agent " ++ a)),
                     ("executed_at", .str c.nowIso)])
        else
          .error ⟨"Agent " ++ a ++ " is not active. Please activate first."⟩
    | none =>
        .error ⟨"Agent " ++ a ++ " is not active. Please activate first."⟩

/-- `getAgentStatus` of src/server.ts. -/
def getAgentStatus (st : AgentMap) (args : ToolArgs) :
    Except ToolError JsonV :=
  if strFalsy args.agent_id then
    .error ⟨"agent_id is required"⟩
  else
    let a := args.agent_id.getD ""
    .ok (.obj [("success", .bool true),
               ("agent_id", .str a),
               ("status", .str (match mapGet st a with
                 | some as => as.status.toStr
                 | none => "inactive")),
               ("activated_at", match mapGet st a with
                 | some as => .str as.activated_at
                 | none => .null),
               ("metadata", .str (match mapGet st a with
                 | some as => as.metadata
                 | none => "\x7b\x7d"))])

/-- `handleToolCall` of src/server.ts: argument normalisation and the
tool-name switch; unknown tools throw. -/
def handleToolCall (c : Clock) (st : AgentMap) (req : ToolRequest) :
    Except ToolError (JsonV × AgentMap) :=
  let args := req.arguments.getD {}
  if req.name = "list_agents" then
    .ok (listAgents st, st)
  else if req.name = "bmad_activate_agent" then
    activateAgent c st args
  else if req.name = "execute_task" then
    (executeTask c st args).map (fun r => (r, st))
  else if req.name = "get_agent_status" then
    (getAgentStatus st args).map (fun r => (r, st))
  else
    .error ⟨"Unknown tool: " ++ req.name⟩

/-- `createErrorResponse` of src/server.ts: the structured error object. -/
def createErrorResponse (c : Clock) (e : ToolError) : JsonV :=
  .obj [("success", .bool false),
        ("error", .bool true),
        ("message", .str e.message),
        ("type", .str "Error"),
        ("timestamp", .str c.nowIso)]

/-- The MCP `tools/call` handler: `handleToolCall` wrapped in
try/catch, a thrown error becomes `createErrorResponse` and leaves the
agent map untouched. -/
def mcpToolsCall (c : Clock) (st : AgentMap) (req : ToolRequest) :
    JsonV × AgentMap :=
  match handleToolCall c st req with
  | .ok (r, st') => (r, st')
  | .error e => (createErrorResponse c e, st)

/-- The HTTP POST `/tools/call` route: same wrapping, with HTTP status
200 on success and 500 on a caught error. -/
def httpToolsCall (c : Clock) (st : AgentMap) (req : ToolRequest) :
    (Nat × JsonV) × AgentMap :=
  match handleToolCall c st req with
  | .ok (r, st') => ((200, r), st')
  | .error e => ((500, createErrorResponse c e), st)

/-- A response the caller reads as success. -/
def isSuccessResp (r : JsonV) : Bool := isBoolTrue (r.getField "success")

/-- A structured error object: `success: false`, `error: true` and a
message naming what blocked the operation. -/
def isStructuredErrorResp (r : JsonV) : Bool :=
  isBoolFalse (r.getField "success") && isBoolTrue (r.getField "error")
    && (r.getField "message").isSome

/-- Server states reachable from the constructor's empty agent map by
tool calls through the wrapped entry point. -/
inductive SReachable : AgentMap → Prop where
  | init : SReachable []
  | step (c : Clock) (req : ToolRequest) {st : AgentMap} :
      SReachable st → SReachable (mcpToolsCall c st req).2

end BMAD

namespace BMAD.Core

/-!
The Workflow & Task Orchestration Core (spec sections 3 to 4.4) has no
implementation under the repository sources; every definition in this
namespace is modelled from the spec, as its doc comment records.
Hours are rationals (the spec's floats, idealised).
-/

/-- Modelled from the spec: Task status domain (section 3). -/
inductive TaskStatus where
  | pending
  | in_progress
  | blocked
  | completed
deriving DecidableEq

/-- Modelled from the spec: the Task record of the Task Entity Store
(section 3); `created_at` / `updated_at` timestamps are omitted, no
claim mentions them. -/
structure Task where
  id : String
  name : String
  agent : Option String
  allocated_hours : Rat
  completed_hours : Rat
  status : TaskStatus
  scheduled_date : Option Nat
deriving DecidableEq

/-- The Task Entity Store's Task table, keyed by id. -/
abbrev TaskStore := List Task

/-- Modelled from the spec: the store-boundary error taxonomy entries the
Task Entity Store raises (section 7). -/
inductive StoreError where
  | DuplicateId
  | InvalidAllocation
  | NotFound
  | InvalidDelta
  | IncompleteHours
deriving DecidableEq

def findTask (s : TaskStore) (tid : String) : Option Task :=
  s.find? (fun t => t.id == tid)

def replaceTask : TaskStore → String → Task → TaskStore
  | [], _, _ => []
  | t :: rest, tid, nt =>
      if t.id == tid then nt :: rest else t :: replaceTask rest tid nt

/-- Modelled from the spec (section 4.1): `create_task` fails with
`DuplicateId` if the id exists, with `InvalidAllocation` if
allocated_hours ≤ 0 (checked in the spec's listing order), else appends
a fresh pending Task with zero completed hours. -/
def create_task (s : TaskStore) (tid tname : String) (alloc : Rat)
    (agent : Option String) (sched : Option Nat) : Except StoreError TaskStore :=
  if (findTask s tid).isSome then .error .DuplicateId
  else if alloc ≤ 0 then .error .InvalidAllocation
  else .ok (s ++ [⟨tid, tname, agent, alloc, 0, .pending, sched⟩])

/-- Modelled from the spec (section 4.1): `update_progress` fails with
`NotFound` / `InvalidDelta` (negative delta), clamps completed_hours at
allocated_hours, flips status to `completed` exactly at the threshold,
otherwise to `in_progress` when previously `pending`.  Per the section 8
scenario the already-completed case is resolved by the clamping policy. -/
def update_progress (s : TaskStore) (tid : String) (delta : Rat) :
    Except StoreError TaskStore :=
  match findTask s tid with
  | none => .error .NotFound
  | some t =>
      if delta < 0 then .error .InvalidDelta
      else
        let newC := min (t.completed_hours + delta) t.allocated_hours
        let newSt : TaskStatus :=
          if newC = t.allocated_hours then .completed
          else if t.status = .pending then .in_progress else t.status
        .ok (replaceTask s tid { t with completed_hours := newC, status := newSt })

/-- Modelled from the spec (section 4.1): `set_status` is a direct
override allowed only for `blocked`/`pending`/`in_progress`; forcing
`completed` fails with `IncompleteHours`.  A task whose hour bound is
already met is `completed` and stays so (section 3: status transitions
only via the scheduler; the status/hours law would otherwise break), so
overriding it is likewise rejected by the `IncompleteHours`-class guard
of the section 8 scenario. -/
def set_status (s : TaskStore) (tid : String) (target : TaskStatus) :
    Except StoreError TaskStore :=
  match findTask s tid with
  | none => .error .NotFound
  | some t =>
      if target = .completed then .error .IncompleteHours
      else if t.completed_hours = t.allocated_hours then .error .IncompleteHours
      else .ok (replaceTask s tid { t with status := target })

/-- Modelled from the spec (section 4.1): `correct_progress` is the
explicit-correction path for reductions; the spec fixes no contract
beyond the section 3 invariants, so the new completed_hours value is
clamped into [0, allocated_hours] and the status recomputed to keep the
status/hours law. -/
def correct_progress (s : TaskStore) (tid : String) (newHours : Rat) :
    Except StoreError TaskStore :=
  match findTask s tid with
  | none => .error .NotFound
  | some t =>
      let newC := min (max newHours 0) t.allocated_hours
      let newSt : TaskStatus :=
        if newC = t.allocated_hours then .completed
        else if t.status = .completed then .in_progress else t.status
      .ok (replaceTask s tid { t with completed_hours := newC, status := newSt })

/-- Modelled from the spec (section 4.1): `delete_task` fails with
`NotFound`; the `ReferencedByActiveStory` / force-flag interaction with
Story task lists is outside the scope of the claims and not modelled. -/
def delete_task (s : TaskStore) (tid : String) : Except StoreError TaskStore :=
  if (findTask s tid).isSome then .ok (s.filter (fun t => t.id != tid))
  else .error .NotFound

/-- Task Entity Store states reachable from the empty store through the
store's mutating contract operations. -/
inductive TReachable : TaskStore → Prop where
  | init : TReachable []
  | create {s s' : TaskStore} (tid tname : String) (alloc : Rat)
      (agent : Option String) (sched : Option Nat) :
      TReachable s → create_task s tid tname alloc agent sched = .ok s' →
      TReachable s'
  | update {s s' : TaskStore} (tid : String) (delta : Rat) :
      TReachable s → update_progress s tid delta = .ok s' → TReachable s'
  | setSt {s s' : TaskStore} (tid : String) (target : TaskStatus) :
      TReachable s → set_status s tid target = .ok s' → TReachable s'
  | correct {s s' : TaskStore} (tid : String) (newHours : Rat) :
      TReachable s → correct_progress s tid newHours = .ok s' → TReachable s'
  | del {s s' : TaskStore} (tid : String) :
      TReachable s → delete_task s tid = .ok s' → TReachable s'

/-- The section 3 Task invariant: the hour bound, and completion exactly
at the bound. -/
def TaskInv (t : Task) : Prop :=
  t.completed_hours ≤ t.allocated_hours ∧
    (t.status = .completed ↔ t.completed_hours = t.allocated_hours)

/-- `create_task` as seen by a caller that keeps its store on error. -/
def create_task_run (s : TaskStore) (tid tname : String) (alloc : Rat)
    (agent : Option String) (sched : Option Nat) : TaskStore :=
  match create_task s tid tname alloc agent sched with
  | .ok s' => s'
  | .error _ => s

/-- Modelled from the spec (section 4.2 / section 3 Capacity Window):
the hours already allocated to an agent on a date, recomputed on demand
from the Task records. -/
def allocatedOn (s : TaskStore) (agent : String) (date : Nat) : Rat :=
  (s.filter (fun t => t.agent == some agent && t.scheduled_date == some date)).foldr
    (fun t acc => t.allocated_hours + acc) 0

/-- The `check_capacity` result shape `(ok, remaining_hours)`. -/
structure CapResult where
  ok : Bool
  remaining_hours : Rat
deriving DecidableEq

/-- Modelled from the spec (section 4.2): `check_capacity` is a pure
function of the current Task Entity Store contents plus the configured
per-agent daily ceiling; ok iff the extra hours fit under the ceiling. -/
def check_capacity (ceiling : Rat) (s : TaskStore) (agent : String)
    (date : Nat) (hours : Rat) : CapResult :=
  let used := allocatedOn s agent date
  ⟨decide (used + hours ≤ ceiling), ceiling - used⟩

/-- `check_capacity` at the command surface: a call that reads the store
and hands it back (never mutates state). -/
def check_capacity_call (ceiling : Rat) (s : TaskStore) (agent : String)
    (date : Nat) (hours : Rat) : CapResult × TaskStore :=
  (check_capacity ceiling s agent date hours, s)

/-- Modelled from the spec: Project workflow_type domain (section 3). -/
inductive WorkflowType where
  | full
  | planning_only
  | development_only
deriving DecidableEq

/-- Modelled from the spec: the linear Project state machine
(section 4.3). -/
inductive ProjectState where
  | idea_generation
  | analyst_research
  | project_brief
  | prd_creation
  | architecture
  | development_ready
  | completed
deriving DecidableEq

/-- Modelled from the spec: the Story state machine states
(section 4.3). -/
inductive StoryState where
  | draft
  | risk_profiling
  | validation
  | development
  | qa_check
  | ready_for_review
  | qa_review
  | quality_gate
  | completed
deriving DecidableEq

/-- Modelled from the spec: the workflow error taxonomy entries the
state machine raises (section 7). -/
inductive WfError where
  | NotFound
  | StateMismatch
  | IllegalTransition
deriving DecidableEq

/-- Modelled from the spec: the Project record (section 3); `stories`
carries the states of the project's Stories (membership only). -/
structure Project where
  id : String
  name : String
  workflow_type : WorkflowType
  state : ProjectState
  stories : List StoryState
deriving DecidableEq

abbrev ProjectStore := List Project

def findProject (ps : ProjectStore) (pid : String) : Option Project :=
  ps.find? (fun p => p.id == pid)

def replaceProject : ProjectStore → String → Project → ProjectStore
  | [], _, _ => []
  | p :: rest, pid, np =>
      if p.id == pid then np :: rest else p :: replaceProject rest pid np

/-- Modelled from the spec (section 4.3): the forward edge out of a
Project state; `planning_only` terminates after `development_ready`,
and there is no backward edge. -/
def forwardEdge (w : WorkflowType) : ProjectState → Option ProjectState
  | .idea_generation => some .analyst_research
  | .analyst_research => some .project_brief
  | .project_brief => some .prd_creation
  | .prd_creation => some .architecture
  | .architecture => some .development_ready
  | .development_ready => if w = .planning_only then none else some .completed
  | .completed => none

/-- Modelled from the spec (section 4.3): `advance` checks the caller's
expected state against the actual one (`StateMismatch` on difference),
then follows the forward edge (`IllegalTransition` when none exists, or
when entering `completed` while some Story is not completed,
section 3's Project invariant). -/
def advance (ps : ProjectStore) (pid : String) (expected : ProjectState) :
    Except WfError ProjectStore :=
  match findProject ps pid with
  | none => .error .NotFound
  | some p =>
      if p.state ≠ expected then .error .StateMismatch
      else
        match forwardEdge p.workflow_type p.state with
        | none => .error .IllegalTransition
        | some next =>
            if next = .completed ∧ ¬ p.stories.all (fun st => st == .completed) then
              .error .IllegalTransition
            else .ok (replaceProject ps pid { p with state := next })

/-- `advance` as seen by a caller that keeps its store on error. -/
def advance_run (ps : ProjectStore) (pid : String) (expected : ProjectState) :
    ProjectStore :=
  match advance ps pid expected with
  | .ok ps' => ps'
  | .error _ => ps

/-- Modelled from the spec: gate verdict domain (section 3). -/
inductive Verdict where
  | PASS
  | CONCESSIONS
  | FAIL
deriving DecidableEq

/-- Modelled from the spec: the six fixed assessment types
(section 4.4). -/
inductive GateType where
  | risk
  | design
  | trace
  | nfr
  | review
  | gate
deriving DecidableEq

/-- Modelled from the spec: the immutable GateResult record
(section 3). -/
structure GateResult where
  gate_type : GateType
  verdict : Verdict
  findings : List String
  produced_at : Nat
  produced_by : String
deriving DecidableEq

/-- Modelled from the spec: the Story record (section 3); fields not
touched by the gate claims (timestamps) are omitted. -/
structure Story where
  id : String
  title : String
  description : String
  project_id : String
  state : StoryState
  task_ids : List String
  gate_history : List GateResult

/-- Modelled from the spec (section 4.4): the collaborator-supplied and
Story-derived inputs of the sub-assessments — the risk score from Task
complexity signals, the criterion-mapping verdicts of `design` and
`trace`, the `nfr` sub-check verdict, and the documentation
completeness flag consumed by `review`. -/
structure SubChecks where
  riskScore : Story → Rat
  designCheck : Story → Verdict
  traceCheck : Story → Verdict
  nfrCheck : Story → Verdict
  docCheck : Story → Bool

/-- Modelled from the spec: the gate-relevant configuration values
(section 6). -/
structure GateConfig where
  risk_threshold_low : Rat
  risk_threshold_high : Rat
  review_score_cutoff : Rat

/-- Modelled from the spec (section 4.4 `risk`): verdict from the
weighted score against the two configured thresholds. -/
def riskVerdict (cfg : GateConfig) (score : Rat) : Verdict :=
  if score < cfg.risk_threshold_low then .PASS
  else if score ≤ cfg.risk_threshold_high then .CONCESSIONS
  else .FAIL

def verdictPoints : Verdict → Rat
  | .PASS => 1
  | .CONCESSIONS => 1/2
  | .FAIL => 0

/-- Modelled from the spec (section 4.4 `review`): composite score of
`design`, `trace`, `nfr` and the documentation check against the
configured cutoff; the borderline CONCESSIONS band, unspecified in the
spec, is modelled as one point above the cutoff. -/
def reviewVerdict (cfg : GateConfig) (d t n : Verdict) (doc : Bool) : Verdict :=
  let score := verdictPoints d + verdictPoints t + verdictPoints n +
    (if doc then 1 else 0)
  if score < cfg.review_score_cutoff then .FAIL
  else if score < cfg.review_score_cutoff + 1 then .CONCESSIONS
  else .PASS

/-- The most recent GateResult of a given type in a Story's append-only
gate history (most recent last). -/
def mostRecentOf (g : GateType) (h : List GateResult) : Option GateResult :=
  (h.filter (fun r => r.gate_type == g)).getLast?

/-- Modelled from the spec (section 4.4): `run_gate` produces exactly
one GateResult for the requested assessment type.  The terminal `gate`
certification reads only the most recent `review` result from the gate
history — PASS/CONCESSIONS is carried over, anything else (or no review
at all) is an automatic FAIL — without running the `design`, `trace` or
`nfr` sub-checks. -/
def run_gate (checks : SubChecks) (cfg : GateConfig) (now : Nat)
    (author : String) (s : Story) (g : GateType) : GateResult :=
  match g with
  | .risk => ⟨.risk, riskVerdict cfg (checks.riskScore s), [], now, author⟩
  | .design => ⟨.design, checks.designCheck s, [], now, author⟩
  | .trace => ⟨.trace, checks.traceCheck s, [], now, author⟩
  | .nfr => ⟨.nfr, checks.nfrCheck s, [], now, author⟩
  | .review =>
      ⟨.review,
       reviewVerdict cfg (checks.designCheck s) (checks.traceCheck s)
         (checks.nfrCheck s) (checks.docCheck s), [], now, author⟩
  | .gate =>
      match mostRecentOf .review s.gate_history with
      | some r =>
          if r.verdict = .PASS ∨ r.verdict = .CONCESSIONS then
            ⟨.gate, r.verdict, [], now, author⟩
          else ⟨.gate, .FAIL, [], now, author⟩
      | none => ⟨.gate, .FAIL, [], now, author⟩

end BMAD.Core

namespace BMAD

/-! Concrete instances used by the witness theorems. -/

def exClock : Clock := ⟨"2025-01-01T00:00:00.000Z", 1000⟩

def exArgs : ToolArgs := ⟨some "architect", none, none, none⟩

def exReq : ToolRequest := ⟨"bmad_activate_agent", some exArgs⟩

/-- The agent map after activating `architect` on the empty map. -/
def exMap : AgentMap := (mcpToolsCall exClock [] exReq).2

def exAgent : AgentState :=
  ⟨"architect", .active, "2025-01-01T00:00:00.000Z", "\x7b\x7d"⟩

end BMAD

namespace BMAD.Core

/-! Concrete instances used by the witness theorems. -/

def exTask : Task := ⟨"t1", "Demo task", some "developer", 10, 0, .pending, some 7⟩

/-- The task store after `create_task` of `exTask` on the empty store. -/
def exStore : TaskStore := [exTask]

def exProject : Project :=
  ⟨"p1", "Demo project", .full, .architecture, [.completed]⟩

def exProjects : ProjectStore := [exProject]

def exReview : GateResult := ⟨.review, .CONCESSIONS, [], 5, "qa"⟩

def exStory : Story :=
  ⟨"s1", "Demo story", "desc", "p1", .quality_gate, ["t1"], [exReview]⟩

def exChecks : SubChecks :=
  ⟨fun _ => 0, fun _ => .PASS, fun _ => .PASS, fun _ => .PASS, fun _ => true⟩

def exChecks2 : SubChecks :=
  ⟨fun _ => 9, fun _ => .FAIL, fun _ => .FAIL, fun _ => .FAIL, fun _ => false⟩

def exCfg : GateConfig := ⟨1, 3, 2⟩

end BMAD.Core

namespace BMAD

/-! ## Server lemmas -/

theorem structuredError_createErrorResponse (c : Clock) (e : ToolError) :
    isStructuredErrorResp (createErrorResponse c e) = true := by
  simp [isStructuredErrorResp, createErrorResponse, JsonV.getField, lookupField,
    isBoolTrue, isBoolFalse]

theorem listAgents_success (st : AgentMap) : isSuccessResp (listAgents st) = true := by
  simp [isSuccessResp, listAgents, JsonV.getField, lookupField, isBoolTrue]

theorem activateAgent_ok_success (c : Clock) (st : AgentMap) (args : ToolArgs)
    (r : JsonV) (st' : AgentMap) (h : activateAgent c st args = .ok (r, st')) :
    isSuccessResp r = true := by
  unfold activateAgent at h
  split at h
  · simp_all
  · simp only [] at h
    split at h
    · split at h
      · split at h
        all_goals
          rw [Except.ok.injEq, Prod.mk.injEq] at h
          rw [← h.1]
          simp [isSuccessResp, JsonV.getField, lookupField, isBoolTrue]
      · rw [Except.ok.injEq, Prod.mk.injEq] at h
        rw [← h.1]
        simp [isSuccessResp, JsonV.getField, lookupField, isBoolTrue]
    · simp_all

theorem executeTask_ok_success (c : Clock) (st : AgentMap) (args : ToolArgs)
    (r : JsonV) (h : executeTask c st args = .ok r) :
    isSuccessResp r = true := by
  unfold executeTask at h
  split at h
  · simp_all
  · simp only [] at h
    split at h
    · split at h
      · rw [Except.ok.injEq] at h
        rw [← h]
        simp [isSuccessResp, JsonV.getField, lookupField, isBoolTrue]
      · simp_all
    · simp_all

theorem getAgentStatus_ok_success (st : AgentMap) (args : ToolArgs)
    (r : JsonV) (h : getAgentStatus st args = .ok r) :
    isSuccessResp r = true := by
  unfold getAgentStatus at h
  split at h
  · simp_all
  · rw [Except.ok.injEq] at h
    subst h
    simp [isSuccessResp, JsonV.getField, lookupField, isBoolTrue]

theorem handleToolCall_ok_success (c : Clock) (st : AgentMap) (req : ToolRequest)
    (r : JsonV) (st' : AgentMap) (h : handleToolCall c st req = .ok (r, st')) :
    isSuccessResp r = true := by
  unfold handleToolCall at h
  simp only [] at h
  split at h
  · rw [Except.ok.injEq, Prod.mk.injEq] at h
    rw [← h.1]
    exact listAgents_success st
  · split at h
    · exact activateAgent_ok_success c st _ r st' h
    · split at h
      · cases hx : executeTask c st (req.arguments.getD {}) with
        | ok v =>
            rw [hx] at h
            simp only [Except.map] at h
            rw [Except.ok.injEq, Prod.mk.injEq] at h
            rw [← h.1]
            exact executeTask_ok_success c st _ v hx
        | error e => rw [hx] at h; simp [Except.map] at h
      · split at h
        · cases hx : getAgentStatus st (req.arguments.getD {}) with
          | ok v =>
              rw [hx] at h
              simp only [Except.map] at h
              rw [Except.ok.injEq, Prod.mk.injEq] at h
              rw [← h.1]
              exact getAgentStatus_ok_success st _ v hx
          | error e => rw [hx] at h; simp [Except.map] at h
        · simp at h

theorem mapGet_mem (st : AgentMap) (k : String) (v : AgentState)
    (h : mapGet st k = some v) : (k, v) ∈ st := by
  induction st with
  | nil => simp [mapGet] at h
  | cons kv rest ih =>
      unfold mapGet at h
      split at h
      · rw [Option.some.injEq] at h
        rename_i heq
        have hkv : kv = (k, v) := Prod.ext heq h
        rw [← hkv]
        exact List.mem_cons_self _ _
      · exact List.mem_cons_of_mem _ (ih h)

theorem mapSet_mem (st : AgentMap) (k : String) (v : AgentState) (kv : String × AgentState)
    (h : kv ∈ mapSet st k v) : kv ∈ st ∨ kv = (k, v) := by
  induction st with
  | nil =>
      unfold mapSet at h
      right
      simpa using h
  | cons kv' rest ih =>
      unfold mapSet at h
      split at h
      · rcases List.mem_cons.1 h with h1 | h1
        · right; exact h1
        · left; exact List.mem_cons_of_mem _ h1
      · rcases List.mem_cons.1 h with h1 | h1
        · left; rw [h1]; exact List.mem_cons_self _ _
        · rcases ih h1 with h2 | h2
          · left; exact List.mem_cons_of_mem _ h2
          · right; exact h2

theorem activateAgent_state (c : Clock) (st : AgentMap) (args : ToolArgs)
    (r : JsonV) (st' : AgentMap) (h : activateAgent c st args = .ok (r, st')) :
    st' = st ∨ ∃ a ns, a ∈ validAgents ∧ st' = mapSet st a ns := by
  unfold activateAgent at h
  split at h
  · simp_all
  · simp only [] at h
    split at h
    · rename_i hmem
      split at h
      · split at h
        · rw [Except.ok.injEq, Prod.mk.injEq] at h
          left
          exact h.2.symm
        · rw [Except.ok.injEq, Prod.mk.injEq] at h
          right
          exact ⟨_, _, hmem, h.2.symm⟩
      · rw [Except.ok.injEq, Prod.mk.injEq] at h
        right
        exact ⟨_, _, hmem, h.2.symm⟩
    · simp_all

theorem handleToolCall_state (c : Clock) (st : AgentMap) (req : ToolRequest)
    (r : JsonV) (st' : AgentMap) (h : handleToolCall c st req = .ok (r, st')) :
    st' = st ∨ ∃ a ns, a ∈ validAgents ∧ st' = mapSet st a ns := by
  unfold handleToolCall at h
  simp only [] at h
  split at h
  · rw [Except.ok.injEq, Prod.mk.injEq] at h
    left
    exact h.2.symm
  · split at h
    · exact activateAgent_state c st _ r st' h
    · split at h
      · cases hx : executeTask c st (req.arguments.getD {}) with
        | ok v =>
            rw [hx] at h
            simp only [Except.map] at h
            rw [Except.ok.injEq, Prod.mk.injEq] at h
            left
            exact h.2.symm
        | error e => rw [hx] at h; simp [Except.map] at h
      · split at h
        · cases hx : getAgentStatus st (req.arguments.getD {}) with
          | ok v =>
              rw [hx] at h
              simp only [Except.map] at h
              rw [Except.ok.injEq, Prod.mk.injEq] at h
              left
              exact h.2.symm
          | error e => rw [hx] at h; simp [Except.map] at h
        · simp at h

/-- Every key of a reachable agent-state map is one of the five valid
agent ids. -/
theorem sreachable_valid {st : AgentMap} (h : SReachable st) :
    ∀ kv ∈ st, kv.1 ∈ validAgents := by
  induction h with
  | init => intro kv hkv; simp at hkv
  | step c req hst ih =>
      intro kv hkv
      unfold mcpToolsCall at hkv
      rename_i st0
      revert hkv
      cases hx : handleToolCall c st0 req with
      | ok p =>
          intro hkv
          obtain ⟨r, st'⟩ := p
          simp only [] at hkv
          rcases handleToolCall_state c st0 req r st' hx with h1 | ⟨a, ns, hmem, h1⟩
          · exact ih kv (h1 ▸ hkv)
          · rw [h1] at hkv
            rcases mapSet_mem st0 a ns kv hkv with h2 | h2
            · exact ih kv h2
            · rw [h2]
              exact hmem
      | error e =>
          intro hkv
          simp only [] at hkv
          exact ih kv hkv

theorem validAgents_ne_empty : ∀ a ∈ validAgents, a ≠ "" := by decide

theorem activateAgent_invalid_error (c : Clock) (st : AgentMap) (args : ToolArgs)
    (h : strFalsy args.agent_id = true ∨
      ∃ a, args.agent_id = some a ∧ a ∉ validAgents) :
    ∃ e, activateAgent c st args = .error e := by
  unfold activateAgent
  split
  · exact ⟨_, rfl⟩
  · rename_i hfal
    rcases h with h | ⟨a, ha, hmem⟩
    · exact absurd h hfal
    · simp only []
      rw [ha]
      simp only [Option.getD_some]
      rw [if_neg hmem]
      exact ⟨_, rfl⟩

theorem executeTask_not_active_error (c : Clock) (st : AgentMap) (args : ToolArgs)
    (h : ∀ a as, args.agent_id = some a → mapGet st a = some as →
      as.status ≠ .active) :
    ∃ e, executeTask c st args = .error e := by
  unfold executeTask
  split
  · exact ⟨_, rfl⟩
  · rename_i hfal
    simp only []
    cases hid : args.agent_id with
    | none => rw [hid] at hfal; simp [strFalsy] at hfal
    | some a =>
        simp only [Option.getD_some]
        cases hga : mapGet st a with
        | none => exact ⟨_, rfl⟩
        | some as =>
            have hna := h a as hid hga
            dsimp only
            rw [if_neg hna]
            exact ⟨_, rfl⟩

theorem handleToolCall_activate (c : Clock) (st : AgentMap) (args : ToolArgs) :
    handleToolCall c st ⟨"bmad_activate_agent", some args⟩ = activateAgent c st args := by
  simp [handleToolCall]

theorem handleToolCall_execute (c : Clock) (st : AgentMap) (args : ToolArgs) :
    handleToolCall c st ⟨"execute_task", some args⟩ =
      (executeTask c st args).map (fun r => (r, st)) := by
  simp [handleToolCall]

/-! ## Claim theorems for the server -/

/-- C1: every user-triggered tool call, over the MCP tools/call handler
and the HTTP /tools/call route alike, yields either a successful result
or a structured error object (success:false, error:true, message); no
input reaches a bare crash of the request handler. -/
theorem toolCall_no_bare_crash : ∀ (c : Clock) (st : AgentMap) (req : ToolRequest),
    (isSuccessResp (mcpToolsCall c st req).1 = true ∨
      isStructuredErrorResp (mcpToolsCall c st req).1 = true) ∧
    (((httpToolsCall c st req).1.1 = 200 ∧
        isSuccessResp (httpToolsCall c st req).1.2 = true) ∨
      ((httpToolsCall c st req).1.1 = 500 ∧
        isStructuredErrorResp (httpToolsCall c st req).1.2 = true)) := by
  intro c st req
  unfold mcpToolsCall httpToolsCall
  cases h : handleToolCall c st req with
  | ok p =>
      obtain ⟨r, st'⟩ := p
      exact ⟨Or.inl (handleToolCall_ok_success c st req r st' h),
        Or.inl ⟨rfl, handleToolCall_ok_success c st req r st' h⟩⟩
  | error e =>
      exact ⟨Or.inr (structuredError_createErrorResponse c e),
        Or.inr ⟨rfl, structuredError_createErrorResponse c e⟩⟩

/-- C2: an execute_task call whose agent_id has no registered active
agent returns an error — no task result is produced, the wrapped entry
point surfaces a structured error, and the agent map is untouched. -/
theorem execute_task_agent_unavailable (c : Clock) (st : AgentMap) (args : ToolArgs)
    (h : ∀ a as, args.agent_id = some a → mapGet st a = some as →
      as.status ≠ .active) :
    (∃ e, executeTask c st args = .error e) ∧
    isStructuredErrorResp (mcpToolsCall c st ⟨"execute_task", some args⟩).1 = true ∧
    (mcpToolsCall c st ⟨"execute_task", some args⟩).2 = st := by
  obtain ⟨e, he⟩ := executeTask_not_active_error c st args h
  refine ⟨⟨e, he⟩, ?_, ?_⟩
  · unfold mcpToolsCall
    rw [handleToolCall_execute, he]
    exact structuredError_createErrorResponse c e
  · unfold mcpToolsCall
    rw [handleToolCall_execute, he]
    exact rfl

/-- C2 witness: with an empty agent map, executing a task with agent
architect is rejected with a structured error and the map stays empty. -/
theorem execute_task_agent_unavailable_witness :
    (∃ e, executeTask exClock [] ⟨some "architect", some "build", none, none⟩ = .error e) ∧
    isStructuredErrorResp (mcpToolsCall exClock []
      ⟨"execute_task", some ⟨some "architect", some "build", none, none⟩⟩).1 = true ∧
    (mcpToolsCall exClock []
      ⟨"execute_task", some ⟨some "architect", some "build", none, none⟩⟩).2 = [] :=
  execute_task_agent_unavailable exClock [] ⟨some "architect", some "build", none, none⟩
    (by intro a as _ has; simp [mapGet] at has)

/-- C8: activating an agent that is already active returns success with
status already_active, keeps the original activated_at timestamp, and
leaves the agent-state map exactly as it was, so activating twice
equals activating once. -/
theorem activate_idempotent (c : Clock) (st : AgentMap) (args : ToolArgs)
    (a : String) (as : AgentState) (hR : SReachable st) (hid : args.agent_id = some a)
    (hget : mapGet st a = some as) (hact : as.status = .active) :
    activateAgent c st args =
      .ok (.obj [("success", .bool true),
                 ("status", .str "already_active"),
                 ("agent_id", .str a),
                 ("message", .str ("Agent " ++ a ++ " is already active")),
                 ("activated_at", .str as.activated_at)], st) ∧
    (mcpToolsCall c st ⟨"bmad_activate_agent", some args⟩).2 = st := by
  have hmem : a ∈ validAgents := sreachable_valid hR (a, as) (mapGet_mem st a as hget)
  have hne : a ≠ "" := validAgents_ne_empty a hmem
  have hf : strFalsy args.agent_id = false := by simp [strFalsy, hid, hne]
  have hmain : activateAgent c st args =
      .ok (.obj [("success", .bool true),
                 ("status", .str "already_active"),
                 ("agent_id", .str a),
                 ("message", .str ("Agent " ++ a ++ " is already active")),
                 ("activated_at", .str as.activated_at)], st) := by
    unfold activateAgent
    rw [hf]
    simp only [Bool.false_eq_true, if_false, hid, Option.getD_some]
    rw [if_pos hmem, hget]
    dsimp only
    rw [if_pos hact]
  exact ⟨hmain, by unfold mcpToolsCall; rw [handleToolCall_activate, hmain]⟩

/-- C8 witness: in the reachable map where architect was just
activated, a second activation is the identity, reporting
already_active with the original timestamp. -/
theorem activate_idempotent_witness :
    mapGet exMap "architect" = some exAgent ∧ exAgent.status = .active ∧
    (activateAgent exClock exMap exArgs =
      .ok (.obj [("success", .bool true),
                 ("status", .str "already_active"),
                 ("agent_id", .str "architect"),
                 ("message", .str ("Agent " ++ "architect" ++ " is already active")),
                 ("activated_at", .str exAgent.activated_at)], exMap) ∧
      (mcpToolsCall exClock exMap ⟨"bmad_activate_agent", some exArgs⟩).2 = exMap) :=
  ⟨by decide, by decide,
    activate_idempotent exClock exMap exArgs "architect" exAgent
      (SReachable.step exClock exReq SReachable.init) rfl (by decide) (by decide)⟩

/-- C9: a bmad_activate_agent call whose agent_id is missing or outside
the five-id roster yields a structured error and leaves the map
unchanged, and every entry of any reachable agent-state map is keyed by
one of the five valid agent ids. -/
theorem activate_only_valid_agents :
    (∀ (c : Clock) (st : AgentMap) (args : ToolArgs),
      (strFalsy args.agent_id = true ∨
        ∃ a, args.agent_id = some a ∧ a ∉ validAgents) →
      isStructuredErrorResp
        (mcpToolsCall c st ⟨"bmad_activate_agent", some args⟩).1 = true ∧
      (mcpToolsCall c st ⟨"bmad_activate_agent", some args⟩).2 = st) ∧
    (∀ st, SReachable st → ∀ kv ∈ st, kv.1 ∈ validAgents) := by
  constructor
  · intro c st args h
    obtain ⟨e, he⟩ := activateAgent_invalid_error c st args h
    refine ⟨?_, ?_⟩
    · unfold mcpToolsCall
      rw [handleToolCall_activate, he]
      exact structuredError_createErrorResponse c e
    · unfold mcpToolsCall
      rw [handleToolCall_activate, he]
  · intro st h
    exact sreachable_valid h

/-- C9 witness: activating the unknown id hacker on the empty map is a
structured error that leaves the map empty, and the reachable map with
architect active has only valid keys. -/
theorem activate_only_valid_agents_witness :
    (isStructuredErrorResp (mcpToolsCall exClock []
        ⟨"bmad_activate_agent", some ⟨some "hacker", none, none, none⟩⟩).1 = true ∧
      (mcpToolsCall exClock []
        ⟨"bmad_activate_agent", some ⟨some "hacker", none, none, none⟩⟩).2 = []) ∧
    ("architect", exAgent).1 ∈ validAgents :=
  ⟨activate_only_valid_agents.1 exClock [] ⟨some "hacker", none, none, none⟩
      (Or.inr ⟨"hacker", rfl, by decide⟩),
    activate_only_valid_agents.2 exMap (SReachable.step exClock exReq SReachable.init)
      ("architect", exAgent) (by decide)⟩

/-- C10 counterexample: the claim fails as stated — with architect
active, an execute_task call carrying the task string "" (a string, but
falsy in JS) is rejected by the required-arguments guard instead of
succeeding. -/
theorem execute_task_empty_task_fails :
    ¬ (∀ (c : Clock) (st : AgentMap) (args : ToolArgs) (a t : String) (as : AgentState),
        args.agent_id = some a → mapGet st a = some as → as.status = .active →
        args.task = some t →
        ∃ r, executeTask c st args = .ok r ∧
          r.getField "success" = some (.bool true) ∧
          r.getField "status" = some (.str "completed")) := by
  intro h
  obtain ⟨r, hr, -, -⟩ :=
    h exClock exMap ⟨some "architect", some "", none, none⟩ "architect" "" exAgent
      rfl (by decide) (by decide) rfl
  rw [show executeTask exClock exMap ⟨some "architect", some "", none, none⟩ =
      .error ⟨"agent_id and task are required"⟩ from rfl] at hr
  exact Except.noConfusion hr

/-- C10 amended: an execute_task call whose non-empty agent_id refers
to an active agent and which supplies a non-empty task string always
returns success true with task status completed. -/
theorem execute_task_active_succeeds (c : Clock) (st : AgentMap) (args : ToolArgs)
    (a t : String) (as : AgentState)
    (hid : args.agent_id = some a) (hane : a ≠ "")
    (ht : args.task = some t) (htne : t ≠ "")
    (hget : mapGet st a = some as) (hact : as.status = .active) :
    executeTask c st args =
      .ok (.obj [("success", .bool true),
                 ("task_id", .str ("task_" ++ toString c.nowMs)),
                 ("agent_id", .str a),
                 ("task", .str t),
                 ("parameters", .str (orEmptyObj args.parameters)),
                 ("status", .str "completed"),
                 ("result", .str ("Task " ++ t ++ " executed successfully by agent " ++ a)),
                 ("executed_at", .str c.nowIso)]) := by
  have hf : (strFalsy args.agent_id || strFalsy args.task) = false := by
    simp [strFalsy, hid, ht, hane, htne]
  unfold executeTask
  rw [hf]
  simp only [Bool.false_eq_true, if_false, hid, ht, Option.getD_some]
  rw [hget]
  dsimp only
  rw [if_pos hact]

/-- C10 amended witness: with architect active, executing the task
"build" succeeds with status completed. -/
theorem execute_task_active_succeeds_witness :
    executeTask exClock exMap ⟨some "architect", some "build", none, none⟩ =
      .ok (.obj [("success", .bool true),
                 ("task_id", .str ("task_" ++ toString exClock.nowMs)),
                 ("agent_id", .str "architect"),
                 ("task", .str "build"),
                 ("parameters", .str (orEmptyObj (none : Option String))),
                 ("status", .str "completed"),
                 ("result", .str ("Task " ++ "build" ++ " executed successfully by agent " ++ "architect")),
                 ("executed_at", .str exClock.nowIso)]) :=
  execute_task_active_succeeds exClock exMap ⟨some "architect", some "build", none, none⟩
    "architect" "build" exAgent rfl (by decide) rfl (by decide) (by decide) (by decide)

end BMAD

namespace BMAD.Core

/-! ## Core lemmas -/

theorem findTask_mem (s : TaskStore) (tid : String) (t : Task)
    (h : findTask s tid = some t) : t ∈ s :=
  List.mem_of_find?_eq_some h

theorem replaceTask_mem (s : TaskStore) (tid : String) (nt : Task) (t : Task)
    (h : t ∈ replaceTask s tid nt) : t ∈ s ∨ t = nt := by
  induction s with
  | nil => unfold replaceTask at h; simp at h
  | cons t0 rest ih =>
      unfold replaceTask at h
      split at h
      · rcases List.mem_cons.1 h with h1 | h1
        · right; exact h1
        · left; exact List.mem_cons_of_mem _ h1
      · rcases List.mem_cons.1 h with h1 | h1
        · left; rw [h1]; exact List.mem_cons_self _ _
        · rcases ih h1 with h2 | h2
          · left; exact List.mem_cons_of_mem _ h2
          · right; exact h2

theorem create_task_preserves {s s' : TaskStore} (tid tname : String) (alloc : Rat)
    (agent : Option String) (sched : Option Nat)
    (hinv : ∀ t ∈ s, TaskInv t)
    (hok : create_task s tid tname alloc agent sched = .ok s') :
    ∀ t ∈ s', TaskInv t := by
  unfold create_task at hok
  split at hok
  · exact absurd hok (by simp)
  · split at hok
    · exact absurd hok (by simp)
    · rename_i halloc
      rw [Except.ok.injEq] at hok
      intro t ht
      rw [← hok] at ht
      rcases List.mem_append.1 ht with hmem | hmem
      · exact hinv t hmem
      · have heq : t = ⟨tid, tname, agent, alloc, 0, .pending, sched⟩ := by
          simpa using hmem
        subst heq
        have hpos : (0 : Rat) < alloc := lt_of_not_le halloc
        exact ⟨le_of_lt hpos, by simp [ne_of_lt hpos]⟩

theorem update_progress_preserves {s s' : TaskStore} (tid : String) (delta : Rat)
    (hinv : ∀ t ∈ s, TaskInv t)
    (hok : update_progress s tid delta = .ok s') :
    ∀ t ∈ s', TaskInv t := by
  unfold update_progress at hok
  cases hft : findTask s tid with
  | none => rw [hft] at hok; exact absurd hok (by simp)
  | some t0 =>
      rw [hft] at hok
      dsimp only at hok
      split at hok
      · exact absurd hok (by simp)
      · rename_i hdelta
        rw [Except.ok.injEq] at hok
        intro t ht
        rw [← hok] at ht
        rcases replaceTask_mem _ _ _ _ ht with hmem | heq
        · exact hinv t hmem
        · subst heq
          have ht0 := hinv t0 (findTask_mem s tid t0 hft)
          have hd : 0 ≤ delta := le_of_not_lt hdelta
          by_cases hc : min (t0.completed_hours + delta) t0.allocated_hours
              = t0.allocated_hours
          · exact ⟨by simp [min_le_right], by simp [hc]⟩
          · refine ⟨by simp [min_le_right], ?_⟩
            have hst : t0.status ≠ .completed := by
              intro hcomp
              apply hc
              have hca : t0.completed_hours = t0.allocated_hours := ht0.2.1 hcomp
              rw [hca]
              exact min_eq_right (by linarith)
            simp only [hc, if_false]
            constructor
            · intro hco
              exfalso
              by_cases hp : t0.status = .pending
              · rw [if_pos hp] at hco
                exact TaskStatus.noConfusion hco
              · rw [if_neg hp] at hco
                exact hst hco
            · intro hca
              exact hca.elim

theorem set_status_preserves {s s' : TaskStore} (tid : String) (target : TaskStatus)
    (hinv : ∀ t ∈ s, TaskInv t)
    (hok : set_status s tid target = .ok s') :
    ∀ t ∈ s', TaskInv t := by
  unfold set_status at hok
  cases hft : findTask s tid with
  | none => rw [hft] at hok; exact absurd hok (by simp)
  | some t0 =>
      rw [hft] at hok
      dsimp only at hok
      split at hok
      · exact absurd hok (by simp)
      · rename_i htarget
        split at hok
        · exact absurd hok (by simp)
        · rename_i hhours
          rw [Except.ok.injEq] at hok
          intro t ht
          rw [← hok] at ht
          rcases replaceTask_mem _ _ _ _ ht with hmem | heq
          · exact hinv t hmem
          · subst heq
            have ht0 := hinv t0 (findTask_mem s tid t0 hft)
            exact ⟨ht0.1, by simp [htarget, hhours]⟩

theorem correct_progress_preserves {s s' : TaskStore} (tid : String) (newHours : Rat)
    (hinv : ∀ t ∈ s, TaskInv t)
    (hok : correct_progress s tid newHours = .ok s') :
    ∀ t ∈ s', TaskInv t := by
  unfold correct_progress at hok
  cases hft : findTask s tid with
  | none => rw [hft] at hok; exact absurd hok (by simp)
  | some t0 =>
      rw [hft] at hok
      dsimp only at hok
      rw [Except.ok.injEq] at hok
      intro t ht
      rw [← hok] at ht
      rcases replaceTask_mem _ _ _ _ ht with hmem | heq
      · exact hinv t hmem
      · subst heq
        by_cases hc : min (max newHours 0) t0.allocated_hours = t0.allocated_hours
        · exact ⟨by simp [min_le_right], by simp [hc]⟩
        · refine ⟨by simp [min_le_right], ?_⟩
          simp only [hc, if_false]
          constructor
          · intro hco
            exfalso
            by_cases hp : t0.status = .completed
            · rw [if_pos hp] at hco
              exact TaskStatus.noConfusion hco
            · rw [if_neg hp] at hco
              exact hp hco
          · intro hca
            exact hca.elim

theorem delete_task_preserves {s s' : TaskStore} (tid : String)
    (hinv : ∀ t ∈ s, TaskInv t)
    (hok : delete_task s tid = .ok s') :
    ∀ t ∈ s', TaskInv t := by
  unfold delete_task at hok
  split at hok
  · rw [Except.ok.injEq] at hok
    intro t ht
    rw [← hok] at ht
    exact hinv t (List.mem_of_mem_filter ht)
  · exact absurd hok (by simp)

end BMAD.Core

namespace BMAD.Core

/-! ## Claim theorems for the orchestration core -/

/-- C3: in every reachable state of the Task Entity Store, every Task
satisfies completed_hours ≤ allocated_hours, and its status is
completed exactly when the bound is met. -/
theorem task_invariant_holds {s : TaskStore} (h : TReachable s) :
    ∀ t ∈ s, TaskInv t := by
  induction h with
  | init => intro t ht; simp at ht
  | create tid tname alloc agent sched _ hok ih =>
      exact create_task_preserves tid tname alloc agent sched ih hok
  | update tid delta _ hok ih =>
      exact update_progress_preserves tid delta ih hok
  | setSt tid target _ hok ih =>
      exact set_status_preserves tid target ih hok
  | correct tid newHours _ hok ih =>
      exact correct_progress_preserves tid newHours ih hok
  | del tid _ hok ih =>
      exact delete_task_preserves tid ih hok

/-- C3 witness: the concrete store holding the freshly created task t1
is reachable, and every task in it satisfies the invariant. -/
theorem task_invariant_holds_witness :
    TReachable exStore ∧ ∀ t ∈ exStore, TaskInv t := by
  have hr : TReachable exStore :=
    TReachable.create "t1" "Demo task" 10 (some "developer") (some 7)
      TReachable.init rfl
  exact ⟨hr, task_invariant_holds hr⟩

/-- C4: advance is a no-op under state mismatch — when the caller's
expected state differs from the project's actual state, advance fails
with StateMismatch and the project store is unchanged. -/
theorem advance_state_mismatch (ps : ProjectStore) (pid : String)
    (expected : ProjectState) (p : Project)
    (hf : findProject ps pid = some p) (hne : expected ≠ p.state) :
    advance ps pid expected = .error .StateMismatch ∧
    advance_run ps pid expected = ps := by
  have h1 : advance ps pid expected = .error .StateMismatch := by
    unfold advance
    rw [hf]
    dsimp only
    rw [if_pos (Ne.symm hne)]
  exact ⟨h1, by unfold advance_run; rw [h1]⟩

/-- C4 witness: advancing project p1 (actually in architecture) with
expected state prd_creation fails with StateMismatch and changes
nothing. -/
theorem advance_state_mismatch_witness :
    findProject exProjects "p1" = some exProject ∧
    ProjectState.prd_creation ≠ exProject.state ∧
    (advance exProjects "p1" .prd_creation = .error .StateMismatch ∧
      advance_run exProjects "p1" .prd_creation = exProjects) :=
  ⟨by decide, by decide,
    advance_state_mismatch exProjects "p1" .prd_creation exProject
      (by decide) (by decide)⟩

/-- C5: the gate assessment short-circuits on the most recent review
result — its verdict never depends on the design/trace/nfr sub-check
inputs, a most recent review of PASS or CONCESSIONS is carried over as
the gate verdict, and any other review situation yields FAIL. -/
theorem gate_short_circuit :
    (∀ (checks checks' : SubChecks) (cfg : GateConfig) (now : Nat)
      (author : String) (s : Story),
      run_gate checks cfg now author s .gate = run_gate checks' cfg now author s .gate) ∧
    (∀ (checks : SubChecks) (cfg : GateConfig) (now : Nat) (author : String)
      (s : Story) (r : GateResult),
      mostRecentOf .review s.gate_history = some r →
      r.verdict = .PASS ∨ r.verdict = .CONCESSIONS →
      run_gate checks cfg now author s .gate = ⟨.gate, r.verdict, [], now, author⟩) ∧
    (∀ (checks : SubChecks) (cfg : GateConfig) (now : Nat) (author : String)
      (s : Story),
      (∀ r, mostRecentOf .review s.gate_history = some r → r.verdict = .FAIL) →
      (run_gate checks cfg now author s .gate).verdict = .FAIL) := by
  refine ⟨?_, ?_, ?_⟩
  · intro checks checks' cfg now author s
    rfl
  · intro checks cfg now author s r hr hv
    unfold run_gate
    rw [hr]
    dsimp only
    rw [if_pos hv]
  · intro checks cfg now author s h
    unfold run_gate
    cases hr : mostRecentOf .review s.gate_history with
    | none => rfl
    | some r =>
        have hfail := h r hr
        dsimp only
        rw [if_neg]
        · rw [hfail]
          intro hc
          rcases hc with hc | hc <;> exact Verdict.noConfusion hc

/-- C5 witness: story s1 in quality_gate with a prior CONCESSIONS
review — the gate verdict is CONCESSIONS, identical under two entirely
different sub-check suites. -/
theorem gate_short_circuit_witness :
    mostRecentOf .review exStory.gate_history = some exReview ∧
    (exReview.verdict = .PASS ∨ exReview.verdict = .CONCESSIONS) ∧
    run_gate exChecks exCfg 9 "qa" exStory .gate = ⟨.gate, exReview.verdict, [], 9, "qa"⟩ ∧
    run_gate exChecks exCfg 9 "qa" exStory .gate = run_gate exChecks2 exCfg 9 "qa" exStory .gate :=
  ⟨by decide, Or.inr (by decide),
    gate_short_circuit.2.1 exChecks exCfg 9 "qa" exStory exReview (by decide)
      (Or.inr (by decide)),
    gate_short_circuit.1 exChecks exChecks2 exCfg 9 "qa" exStory⟩

/-- C6: check_capacity is monotonic in the requested hours — ok at H
implies ok at any h < H on the same agent and date — and it never
mutates the store. -/
theorem check_capacity_monotonic (ceiling : Rat) (s : TaskStore) (agent : String)
    (date : Nat) (H h : Rat) (hlt : h < H)
    (hok : (check_capacity ceiling s agent date H).ok = true) :
    (check_capacity ceiling s agent date h).ok = true ∧
    ∀ hrs, (check_capacity_call ceiling s agent date hrs).2 = s := by
  constructor
  · unfold check_capacity at hok ⊢
    dsimp only at hok ⊢
    rw [decide_eq_true_eq] at hok ⊢
    linarith
  · intro hrs
    rfl

/-- C6 witness: on the empty store with ceiling 8, 5 hours fit, hence
so do 2, and the call leaves the store as it was. -/
theorem check_capacity_monotonic_witness :
    (2 : Rat) < 5 ∧ (check_capacity 8 [] "developer" 7 5).ok = true ∧
    ((check_capacity 8 [] "developer" 7 2).ok = true ∧
      ∀ hrs, (check_capacity_call 8 [] "developer" 7 hrs).2 = []) :=
  ⟨by norm_num, by norm_num [check_capacity, allocatedOn],
    check_capacity_monotonic 8 [] "developer" 7 5 2 (by norm_num)
      (by norm_num [check_capacity, allocatedOn])⟩

/-- C7: create_task rejects invalid input at the store boundary — an
existing id fails with DuplicateId, a fresh id with
allocated_hours ≤ 0 fails with InvalidAllocation, and in both cases
the store is unchanged. -/
theorem create_task_rejects :
    (∀ (s : TaskStore) (tid tname : String) (alloc : Rat)
      (agent : Option String) (sched : Option Nat),
      (findTask s tid).isSome = true →
      create_task s tid tname alloc agent sched = .error .DuplicateId ∧
      create_task_run s tid tname alloc agent sched = s) ∧
    (∀ (s : TaskStore) (tid tname : String) (alloc : Rat)
      (agent : Option String) (sched : Option Nat),
      (findTask s tid).isSome = false → alloc ≤ 0 →
      create_task s tid tname alloc agent sched = .error .InvalidAllocation ∧
      create_task_run s tid tname alloc agent sched = s) := by
  constructor
  · intro s tid tname alloc agent sched hdup
    have h1 : create_task s tid tname alloc agent sched = .error .DuplicateId := by
      unfold create_task
      rw [if_pos hdup]
    exact ⟨h1, by unfold create_task_run; rw [h1]⟩
  · intro s tid tname alloc agent sched hfresh hle
    have h1 : create_task s tid tname alloc agent sched = .error .InvalidAllocation := by
      unfold create_task
      rw [if_neg (by simp [hfresh]), if_pos hle]
    exact ⟨h1, by unfold create_task_run; rw [h1]⟩

/-- C7 witness: re-creating the existing id t1 fails with DuplicateId,
creating fresh id t9 with 0 allocated hours fails with
InvalidAllocation, and the store is untouched both times. -/
theorem create_task_rejects_witness :
    ((findTask exStore "t1").isSome = true ∧
      (create_task exStore "t1" "Again" 5 none none = .error .DuplicateId ∧
        create_task_run exStore "t1" "Again" 5 none none = exStore)) ∧
    ((findTask exStore "t9").isSome = false ∧ (0 : Rat) ≤ 0 ∧
      (create_task exStore "t9" "Empty" 0 none none = .error .InvalidAllocation ∧
        create_task_run exStore "t9" "Empty" 0 none none = exStore)) :=
  ⟨⟨by decide, create_task_rejects.1 exStore "t1" "Again" 5 none none (by decide)⟩,
    ⟨by decide, by norm_num,
      create_task_rejects.2 exStore "t9" "Empty" 0 none none (by decide) (by norm_num)⟩⟩

end BMAD.Core
